import Mathlib

/-!
Verification of the continuous relay orchestrator in `Stream247_GUI.py`.

The definitions below are a shallow embedding of the worker logic of the
source file: the prefetch cache consumed by `StreamWorker.run_one_video`,
the overlay-text construction, the RTMP endpoint preflight with RTMPS
fallback, the media-location and metadata resolution strategies, the
per-item relay loop with its backoff policy, and the stop/skip control
flags.  External processes (ffmpeg, yt-dlp) and library calls are
modelled as oracle parameters describing their observable results.
-/

set_option maxHeartbeats 1000000

deriving instance DecidableEq for Except

/-- The prefetch cache slot of `StreamWorker`: the five
`_prefetch_video_id`, `_prefetch_title`, `_prefetch_date`,
`_prefetch_vurl`, `_prefetch_aurl` attributes (source lines 431-435). -/
structure PrefetchCache where
  video_id : Option String
  title : Option String
  date : Option String
  vurl : Option String
  aurl : Option String
deriving Repr, DecidableEq

/-- The all-`None` cache state, as written in `run_one_video` lines 957-961
and in the error branch of `prefetch_next_video` lines 819-823. -/
def PrefetchCache.cleared : PrefetchCache :=
  ⟨none, none, none, none, none⟩

/-- Python truthiness of an `Optional[str]` value: `None` and the empty
string are falsy. -/
def optStrTruthy : Option String → Bool
  | none => false
  | some s => s ≠ ""

/-- The data pulled out of the cache on a hit: title, date, video URL,
audio URL (`run_one_video` lines 952-955). -/
structure CachedData where
  title : Option String
  date : Option String
  vurl : Option String
  aurl : Option String
deriving Repr, DecidableEq

/-- The cache check at the top of `StreamWorker.run_one_video` (source
lines 949-961): the cached data is used iff `_prefetch_video_id ==
video_id and _prefetch_vurl`; on a hit all five cache attributes are set
to `None` after the data is read out; otherwise the cache is left as is
and the caller falls through to synchronous resolution. -/
def consumePrefetch (c : PrefetchCache) (video_id : String) :
    Option CachedData × PrefetchCache :=
  if c.video_id = some video_id ∧ optStrTruthy c.vurl then
    (some ⟨c.title, c.date, c.vurl, c.aurl⟩, PrefetchCache.cleared)
  else
    (none, c)

/-! ### Publish-date formatting (`fmt_yt_date`, source lines 231-261)

Python strings are embedded as `String` (a list of unicode code points,
matching `str`).  `datetime` computations are embedded explicitly: date
construction validity, one-day subtraction (with the `OverflowError` at
0001-01-01 modelled as `none`), and the epoch-to-civil conversion used by
`datetime.fromtimestamp` (with the documented year range 1..9999 of
`datetime`, outside of which Python raises and the source falls back to
`None`). -/

def monthAbbr (m : Nat) : String :=
  if m = 1 then "Jan" else if m = 2 then "Feb" else if m = 3 then "Mar"
  else if m = 4 then "Apr" else if m = 5 then "May" else if m = 6 then "Jun"
  else if m = 7 then "Jul" else if m = 8 then "Aug" else if m = 9 then "Sep"
  else if m = 10 then "Oct" else if m = 11 then "Nov" else if m = 12 then "Dec"
  else ""

/-- `dt.strftime("%b %-d, %Y")`: abbreviated month, non-zero-padded day,
year. -/
def fmtDatePretty (y m d : Nat) : String :=
  monthAbbr m ++ " " ++ Nat.repr d ++ ", " ++ Nat.repr y

def isLeap (y : Nat) : Bool :=
  decide ((y % 4 = 0 ∧ y % 100 ≠ 0) ∨ y % 400 = 0)

def daysInMonth (y m : Nat) : Nat :=
  if m = 2 then (if isLeap y then 29 else 28)
  else if m = 4 ∨ m = 6 ∨ m = 9 ∨ m = 11 then 30
  else 31

/-- Validity of `datetime.date(y, m, d)` (raises `ValueError` otherwise):
`MINYEAR = 1`, `MAXYEAR = 9999`. -/
def isValidDate (y m d : Nat) : Bool :=
  decide (1 ≤ y ∧ y ≤ 9999 ∧ 1 ≤ m ∧ m ≤ 12 ∧ 1 ≤ d ∧ d ≤ daysInMonth y m)

/-- `date_obj - datetime.timedelta(days=1)` on a valid date; `none` models
the `OverflowError` raised at 0001-01-01. -/
def predDay (y m d : Nat) : Option (Nat × Nat × Nat) :=
  if 1 < d then some (y, m, d - 1)
  else if 1 < m then some (y, m - 1, daysInMonth y (m - 1))
  else if 1 < y then some (y - 1, 12, 31)
  else none

/-- Month and day from the day-of-year offset of a March-based year
(helper of `civilFromDays`). -/
def civilMD (doy : Nat) : Nat × Nat :=
  let mp := (5 * doy + 2) / 153
  let d := doy - (153 * mp + 2) / 5 + 1
  let m := if mp < 10 then mp + 3 else mp - 9
  (m, d)

/-- Civil-from-days conversion (proleptic Gregorian), the inverse of the
day count used by `datetime.fromtimestamp`: day 0 is 1970-01-01.  Returns
(year, month, day). -/
def civilFromDays (z0 : Int) : Int × Nat × Nat :=
  let z := z0 + 719468
  let era : Int := Int.fdiv z 146097
  let doe : Nat := (z - era * 146097).toNat
  let yoe : Nat := (doe - doe / 1460 + doe / 36524 - doe / 146096) / 365
  let y : Int := (yoe : Int) + era * 400
  let doy : Nat := doe - (365 * yoe + yoe / 4 - yoe / 100)
  let md := civilMD doy
  (if md.1 ≤ 2 then y + 1 else y, md.1, md.2)

def isAsciiDigit (c : Char) : Bool :=
  decide (48 ≤ c.toNat ∧ c.toNat ≤ 57)

/-- `int(...)` on a string of decimal digits. -/
def digitsToNat (l : List Char) : Nat :=
  l.foldl (fun a c => 10 * a + (c.toNat - 48)) 0

/-- Construct the date (`ValueError` on invalid input), subtract one day,
format (helper of `fmtUploadDate`, the `upload_date` branch of
`fmt_yt_date`, source lines 234-247; any exception falls through to the
timestamp branch). -/
def fmtValidDate (y m d : Nat) : Option String :=
  if isValidDate y m d then
    match predDay y m d with
    | some x => some (fmtDatePretty x.1 x.2.1 x.2.2)
    | none => none
  else none

def fmtUploadDate (u : String) : Option String :=
  if u.length = 8 ∧ u.data.all isAsciiDigit then
    fmtValidDate (digitsToNat (u.data.take 4))
      (digitsToNat ((u.data.drop 4).take 2))
      (digitsToNat (u.data.drop 6))
  else none

/-- The timestamp branch of `fmt_yt_date` (source lines 249-260):
`datetime.fromtimestamp(ts, utc)` (raising outside years 1..9999),
subtract one day (raising if the result leaves the supported range),
format. -/
def fmtTimestamp (t : Int) : Option String :=
  let days := Int.fdiv t 86400
  let c1 := civilFromDays days
  if 1 ≤ c1.1 ∧ c1.1 ≤ 9999 then
    let c2 := civilFromDays (days - 1)
    if 1 ≤ c2.1 ∧ c2.1 ≤ 9999 then
      some (fmtDatePretty c2.1.toNat c2.2.1 c2.2.2)
    else none
  else none

/-- Python `release_ts or timestamp` (`0` and `None` are falsy). -/
def pyOrInt : Option Int → Option Int → Option Int
  | some t, b => if t = 0 then b else some t
  | none, b => b

/-- `ts = release_ts or timestamp; if ts: ...` (source lines 249-260). -/
def fmtTsFallback (timestamp release_ts : Option Int) : Option String :=
  match pyOrInt release_ts timestamp with
  | some t => if t = 0 then none else fmtTimestamp t
  | none => none

/-- `fmt_yt_date(upload_date, timestamp, release_ts)` (source lines
231-261). -/
def fmt_yt_date (upload_date : Option String) (timestamp release_ts : Option Int) :
    Option String :=
  match (match upload_date with | some u => fmtUploadDate u | none => none) with
  | some s => some s
  | none => fmtTsFallback timestamp release_ts

/-! ### Overlay text (`run_one_video`, source lines 975-987) -/

/-- Python `str.isspace` characters relevant to `str.strip()` (ASCII
whitespace; the titles handled here). -/
def pyIsSpace (c : Char) : Bool :=
  decide (c.toNat = 32 ∨ c.toNat = 9 ∨ c.toNat = 10 ∨ c.toNat = 13 ∨
    c.toNat = 11 ∨ c.toNat = 12)

/-- Python `s.strip()`. -/
def pyStrip (s : String) : String :=
  ⟨((s.data.dropWhile pyIsSpace).reverse.dropWhile pyIsSpace).reverse⟩

/-- Python `s.replace("\n", " ")` (single-character pattern). -/
def replaceNewlines (s : String) : String :=
  ⟨s.data.map (fun c => if c = '\n' then ' ' else c)⟩

/-- Python `s[:n]`. -/
def pySliceTo (s : String) (n : Nat) : String :=
  ⟨s.data.take n⟩

/-- `MAX_LEN = 75  # total length including suffix` (source line 980). -/
def MAX_LEN : Nat := 75

/-- The overlay text computed by `run_one_video` lines 977-985 and written
to the overlay file: `suffix` is the formatted date behind a bullet (empty
when the date is falsy), the cleaned title is truncated to
`max(10, MAX_LEN - len(suffix) - 3)` characters plus an ellipsis marker
whenever title plus suffix would exceed `MAX_LEN`.  (Python computes
`MAX_LEN - len(suffix) - 3` in ℤ; the ℕ truncated subtraction used here
agrees with it after the `max` with 10.) -/
def overlayText (title : Option String) (pretty_date : Option String) : String :=
  let suffix := match pretty_date with
    | some d => if d = "" then "" else " • " ++ d
    | none => ""
  let title_clean := pyStrip (replaceNewlines (title.getD ""))
  if title_clean.length + suffix.length > MAX_LEN then
    pySliceTo title_clean (max 10 (MAX_LEN - suffix.length - 3)) ++ "..." ++ suffix
  else
    title_clean ++ suffix

/-! ### Endpoint preflight (`preflight_rtmp`, source lines 573-644)

The ffmpeg test push is abstracted as an oracle `push : String → Bool`
giving the success of `try_push(url)` for each URL.  `urllib.parse` is
embedded for the `scheme://netloc/path` URLs the preflight handles (the
RTMP URLs carry no params, query or fragment). -/

/-- The components of `urllib.parse.urlparse` used by the source: scheme,
netloc, path. -/
structure UrlParts where
  scheme : String
  netloc : String
  path : String
deriving Repr, DecidableEq

/-- Split a character list at the first `://`, returning the scheme
characters and the remainder. -/
def splitSchemeAux : List Char → Option (List Char × List Char)
  | [] => none
  | ':' :: '/' :: '/' :: rest => some ([], rest)
  | c :: cs =>
    match splitSchemeAux cs with
    | some (a, b) => some (c :: a, b)
    | none => none

/-- `urllib.parse.urlparse` on a `scheme://netloc/path` URL; the scheme is
lowercased as in Python, the netloc runs to the first slash, the path is
the rest.  A string without `://` parses as a bare path. -/
def urlparse (s : String) : UrlParts :=
  match splitSchemeAux s.data with
  | some (sch, rest) =>
    ⟨⟨sch.map Char.toLower⟩, ⟨rest.takeWhile (fun c => c ≠ '/')⟩,
      ⟨rest.dropWhile (fun c => c ≠ '/')⟩⟩
  | none => ⟨"", "", s⟩

/-- `urllib.parse.urlunparse((scheme, netloc, path, "", "", ""))`. -/
def urlunparse (u : UrlParts) : String :=
  let url := if u.netloc ≠ "" ∨ u.path.data.take 2 = ['/', '/'] then
    "//" ++ u.netloc ++ u.path
  else u.path
  if u.scheme ≠ "" then u.scheme ++ ":" ++ url else url

/-- Python `s.partition(":")` reduced to the (before, after) pair; the
source only uses the part before the first colon. -/
def partitionColon (s : String) : String × String :=
  (⟨s.data.takeWhile (fun c => c ≠ ':')⟩,
   ⟨(s.data.dropWhile (fun c => c ≠ ':')).drop 1⟩)

/-- Split a character list at its last slash (`none` when no slash). -/
def rsplitSlashLast : List Char → Option (List Char × List Char)
  | [] => none
  | c :: cs =>
    match rsplitSlashLast cs with
    | some (a, b) => some (c :: a, b)
    | none => if c = '/' then some ([], cs) else none

/-- Python `s.rsplit("/", 1)[0]`. -/
def rsplitBase (s : String) : String :=
  match rsplitSlashLast s.data with
  | some x => ⟨x.1⟩
  | none => s

/-- Python `s.rsplit("/", 1)[-1]`. -/
def rsplitTail (s : String) : String :=
  match rsplitSlashLast s.data with
  | some x => ⟨x.2⟩
  | none => s

/-- The fields of the `StreamConfig` dataclass (source lines 382-409)
involved in the verified logic. -/
structure StreamConfig where
  playlist_url : String
  stream_key : String
  rtmp_base : String
  fps : Nat
  height : Nat
  overlay_titles : Bool
  shuffle : Bool
deriving Repr, DecidableEq

/-- `StreamConfig.rtmp_url` (source lines 407-409). -/
def StreamConfig.rtmp_url (cfg : StreamConfig) : String :=
  cfg.rtmp_base ++ "/" ++ cfg.stream_key

/-- `StreamWorker.preflight_rtmp` (source lines 573-644): push to the
configured URL; on success return `True`.  On failure, when the parsed
scheme is `rtmp`, build the `rtmps` URL — same host with port forced to
`443` when the netloc has a non-empty host — push once more, and on
success rewrite `cfg.rtmp_base`/`cfg.stream_key` from the rtmps URL and
return `True`; otherwise return `False`.  The result records the outcome,
the updated config, and the URLs pushed in order. -/
def preflight_rtmp (push : String → Bool) (cfg : StreamConfig) :
    Bool × StreamConfig × List String :=
  let url := cfg.rtmp_url
  if push url then (true, cfg, [url])
  else
    let u := urlparse url
    if u.scheme = "rtmp" then
      let host := (partitionColon u.netloc).1
      let new_netloc := if host ≠ "" then host ++ ":" ++ "443" else u.netloc
      let rtmps_url := urlunparse ⟨"rtmps", new_netloc, u.path⟩
      if push rtmps_url then
        (true,
          { cfg with
            rtmp_base := rsplitBase rtmps_url
            stream_key := rsplitTail rtmps_url },
          [url, rtmps_url])
      else (false, cfg, [url, rtmps_url])
    else (false, cfg, [url])

/-! ### Media-location resolution (`get_stream_urls`, source lines 747-799)

Each yt-dlp invocation is abstracted by an oracle mapping the query shape
to the observable result of `run_hidden` (`none` models an exception
raised by the invocation, which every strategy catches and treats as
failure). -/

/-- One yt-dlp `-g` query shape: the HLS-preferring query of strategy 1, a
format-selector query of strategy 2, or the hint-free query of
strategy 3. -/
inductive YtQuery
  | hlsNative (fmt : String)
  | withFmt (fmt : String)
  | plain
deriving Repr, DecidableEq

/-- Observable result of a completed `run_hidden` call: exit code and
captured stdout. -/
structure ProcResult where
  rc : Int
  stdout : String
deriving Repr, DecidableEq

/-- Split a character list on a separator character. -/
def splitOnChar (c : Char) : List Char → List (List Char)
  | [] => [[]]
  | x :: xs =>
    if x = c then [] :: splitOnChar c xs
    else
      match splitOnChar c xs with
      | [] => [[x]]
      | h :: t => (x :: h) :: t

/-- `[ln.strip() for ln in cp.stdout.splitlines() if ln.strip()]`. -/
def cleanLines (s : String) : List String :=
  ((splitOnChar '\n' s.data).map (fun l => pyStrip ⟨l⟩)).filter (fun l => l ≠ "")

/-- Substring occurrence (Python `pat in s`). -/
def listHasSub (pat : List Char) : List Char → Bool
  | [] => pat.isEmpty
  | x :: xs => pat.isPrefixOf (x :: xs) || listHasSub pat xs

/-- `'.m3u8' in line`. -/
def hasM3u8 (l : String) : Bool :=
  listHasSub (".m3u8" : String).data l.data

/-- The `cp.returncode == 0 and cp.stdout` success check shared by all
strategies, yielding the cleaned output lines. -/
def qLines (r : Option ProcResult) : Option (List String) :=
  match r with
  | some cp => if cp.rc = 0 ∧ cp.stdout ≠ "" then some (cleanLines cp.stdout) else none
  | none => none

/-- `(lines[0], None) if len(lines) == 1 else (lines[0], lines[1])`; every
caller checks `lines` is non-empty first, so the `[]` case is
unreachable. -/
def pairFromLines : List String → String × Option String
  | [] => ("", none)
  | [a] => (a, none)
  | a :: b :: _ => (a, some b)

/-- The `RuntimeError` message of `get_stream_urls` when every strategy
fails. -/
def noPlayable (video_id : String) : String :=
  "No playable formats found for video " ++ video_id

/-- The `format_strategies` list (source lines 769-774). -/
def format_strategies : List String :=
  ["bv*+ba/best", "best[height<=?1080]", "worst[height>=480]", "best"]

/-- One iteration of the strategy-2 loop (source lines 776-787): run the
query with format `fmt`; on success with non-empty lines containing no
manifest URL, return the first one or two URLs; otherwise move on. -/
def tryFormat (q : YtQuery → Option ProcResult) (fmt : String) :
    Option (String × Option String) :=
  match qLines (q (.withFmt fmt)) with
  | some lines =>
    if lines ≠ [] then
      if lines.any hasM3u8 then none
      else some (pairFromLines lines)
    else none
  | none => none

def tryFormatList (q : YtQuery → Option ProcResult) :
    List String → Option (String × Option String)
  | [] => none
  | f :: fs =>
    match tryFormat q f with
    | some r => some r
    | none => tryFormatList q fs

/-- `StreamWorker.get_stream_urls` (source lines 747-799): strategy 1
queries `-f best --hls-prefer-native` and returns the first `.m3u8` line
when one appears; strategy 2 walks `format_strategies`, rejecting any
manifest output; strategy 3 queries without a format hint and accepts any
non-empty output; if everything fails, the distinct no-playable-source
error is raised. -/
def get_stream_urls (q : YtQuery → Option ProcResult) (video_id : String) :
    Except String (String × Option String) :=
  let s1 :=
    match qLines (q (.hlsNative "best")) with
    | some lines =>
      if lines ≠ [] ∧ lines.any hasM3u8 then
        match lines.find? hasM3u8 with
        | some hls => some (hls, (none : Option String))
        | none => none
      else none
    | none => none
  match s1 with
  | some r => .ok r
  | none =>
    match tryFormatList q format_strategies with
    | some r => .ok r
    | none =>
      match qLines (q .plain) with
      | some lines =>
        if lines ≠ [] then .ok (pairFromLines lines)
        else .error (noPlayable video_id)
      | none => .error (noPlayable video_id)

/-- Modelled from the spec's wording of C4: the fixed strategy order — an
adaptive-manifest query, four progressively looser direct-URL format
queries, a final query with no format hint. -/
inductive MediaStrategy
  | manifest
  | direct (fmt : String)
  | finalAny
deriving Repr, DecidableEq

/-- Modelled from the spec: the fixed order in which strategies are
tried. -/
def strategyOrder : List MediaStrategy :=
  [.manifest, .direct "bv*+ba/best", .direct "best[height<=?1080]",
   .direct "worst[height>=480]", .direct "best", .finalAny]

/-- Modelled from the spec: the manifest strategy succeeds exactly when
the query yields an adaptive-manifest URL (returning it as a single muxed
location); a direct strategy rejects empty or manifest-bearing results; the
final strategy accepts any non-empty result. -/
def runStrategy (q : YtQuery → Option ProcResult) :
    MediaStrategy → Option (String × Option String)
  | .manifest =>
    (qLines (q (.hlsNative "best"))).bind (fun lines =>
      (lines.find? hasM3u8).map (fun hls => (hls, none)))
  | .direct fmt =>
    (qLines (q (.withFmt fmt))).bind (fun lines =>
      if lines = [] ∨ lines.any hasM3u8 then none else some (pairFromLines lines))
  | .finalAny =>
    (qLines (q .plain)).bind (fun lines =>
      if lines = [] then none else some (pairFromLines lines))

/-- Modelled from the spec: return on the first strategy that succeeds. -/
def firstSuccess (q : YtQuery → Option ProcResult) :
    List MediaStrategy → Option (String × Option String)
  | [] => none
  | st :: rest =>
    match runStrategy q st with
    | some r => some r
    | none => firstSuccess q rest

/-- Modelled from the spec: `ResolveMediaLocations` as described by the
claim — first success over the ordered strategies, else the distinct
no-playable-source error. -/
def resolveMediaLocationsSpec (q : YtQuery → Option ProcResult)
    (video_id : String) : Except String (String × Option String) :=
  match firstSuccess q strategyOrder with
  | some r => .ok r
  | none => .error (noPlayable video_id)

/-! ### Metadata resolution (`get_metadata` / `get_title_legacy`, source
lines 721-745)

`json.loads` is an external library call, abstracted as the oracle
`parse` (`none` models a parse exception, caught at lines 733-734); the
two yt-dlp invocations are abstracted as their completed-process results.
The `try` at lines 731-734 covers only `json.loads`: the `data.get`
calls at line 735-736 and the `upload_date` guard at line 234 run
unguarded, so a last line parsing as a non-object JSON value, or an
ill-typed truthy `upload_date` field, makes `get_metadata` raise.  The
embedding therefore returns `Except PyError`, with JSON field values
abstracted by the operations the source applies to them. -/

/-- A Python error that can escape `get_metadata`. -/
inductive PyError
  | attributeError
  | typeError
deriving Repr, DecidableEq

/-- A JSON value stored in one of the four metadata fields, abstracted by
the operations the source applies to it: truthiness, `len`, whether
`.isdigit` exists, and `int(...)` coercion.  Strings are carried exactly;
a non-integer number is abstracted by its `int(...)` image (`none` when
`int` raises, e.g. NaN) and its truthiness; arrays and nested objects by
their length. -/
inductive JVal
  | jnull
  | jbool (b : Bool)
  | jstr (s : String)
  | jint (n : Int)
  | jnum (intPart : Option Int) (truthy : Bool)
  | jsized (n : Nat)
deriving Repr, DecidableEq

/-- The result of `json.loads` on the last stdout line: a JSON object
carrying the four fields the source reads (each `none` when absent, so
`data.get` yields `None`), or any non-object value — on which the
`data.get` call at line 735 raises `AttributeError`. -/
inductive ParsedJson
  | obj (title upload_date timestamp release_timestamp : Option JVal)
  | nonObject
deriving Repr, DecidableEq

/-- Python truthiness of a JSON field value. -/
def jTruthy : JVal → Bool
  | .jnull => false
  | .jbool b => b
  | .jstr s => s ≠ ""
  | .jint n => n ≠ 0
  | .jnum _ t => t
  | .jsized n => n ≠ 0

/-- Python `int(...)` of a string: surrounding whitespace stripped, an
optional sign, then decimal digits (`none` models the `ValueError` raised
otherwise; digit-grouping underscores are not modelled). -/
def pyIntOfString (s : String) : Option Int :=
  match (pyStrip s).data with
  | [] => none
  | '+' :: ds =>
    if ds ≠ [] ∧ ds.all isAsciiDigit then some (digitsToNat ds) else none
  | '-' :: ds =>
    if ds ≠ [] ∧ ds.all isAsciiDigit then some (-(digitsToNat ds : Int)) else none
  | ds => if ds.all isAsciiDigit then some (digitsToNat ds) else none

/-- Python `int(...)` of a JSON field value; `none` models a raised
`TypeError`/`ValueError` (which the timestamp branch of `fmt_yt_date`
catches at lines 251-260). -/
def jToInt : JVal → Option Int
  | .jnull => none
  | .jbool b => some (if b then 1 else 0)
  | .jstr s => pyIntOfString s
  | .jint n => some n
  | .jnum ip _ => ip
  | .jsized _ => none

/-- Python `release_ts or timestamp` on the raw field values (missing
fields are `None`, which is falsy). -/
def pyOrJ : Option JVal → Option JVal → Option JVal
  | some v, b => if jTruthy v then some v else b
  | none, b => b

/-- The timestamp branch of `fmt_yt_date` on raw field values (source
lines 249-260): pick `release_ts or timestamp`; if truthy, coerce with
`int(...)` and format, and any exception inside the `try` yields `None`.
This branch never raises out of the function. -/
def tsBranchJ (timestamp release_ts : Option JVal) : Option String :=
  match pyOrJ release_ts timestamp with
  | none => none
  | some v =>
    if jTruthy v then
      match jToInt v with
      | some n => fmtTimestamp n
      | none => none
    else none

/-- The `upload_date and len(upload_date) == 8 and upload_date.isdigit()`
guard at line 234, which runs OUTSIDE the `try` of lines 235-246: a falsy
value short-circuits to the timestamp branch; a string is passed on; a
truthy value without `len` (bool, number) raises `TypeError`; a truthy
sized non-string raises `AttributeError` at `.isdigit` when its length is
8 and short-circuits past the guard otherwise. -/
def uploadGuard : Option JVal → Except PyError (Option String)
  | none => .ok none
  | some .jnull => .ok none
  | some (.jbool b) => if b then .error .typeError else .ok none
  | some (.jint n) => if n = 0 then .ok none else .error .typeError
  | some (.jnum _ t) => if t then .error .typeError else .ok none
  | some (.jsized n) =>
    if n = 0 then .ok none
    else if n = 8 then .error .attributeError
    else .ok none
  | some (.jstr s) => .ok (some s)

/-- `fmt_yt_date` applied to the raw JSON field values, as `get_metadata`
calls it at line 736: the upload-date guard may raise; a surviving string
goes through the string-level upload-date branch (`fmtUploadDate`), and
on no date the timestamp branch runs. -/
def fmt_yt_date_j (upload_date timestamp release_ts : Option JVal) :
    Except PyError (Option String) :=
  match uploadGuard upload_date with
  | .error e => .error e
  | .ok udS =>
    match (match udS with | some u => fmtUploadDate u | none => none) with
    | some s => .ok (some s)
    | none => .ok (tsBranchJ timestamp release_ts)

/-- The environment of one metadata resolution: whether yt-dlp was found,
the result of the `-j` query, the result of the `--get-title` query, and
the JSON parser. -/
structure MetaEnv where
  ytdlp_ok : Bool
  jquery : ProcResult
  tquery : ProcResult
  parse : String → Option ParsedJson

/-- The constructed canonical watch URL for an item. -/
def watchUrl (video_id : String) : String :=
  "https://www.youtube.com/watch?v=" ++ video_id

/-- `StreamWorker.get_title_legacy` (source lines 739-745). -/
def get_title_legacy (env : MetaEnv) (video_id : String) : String :=
  if env.ytdlp_ok then
    if env.tquery.rc = 0 ∧ env.tquery.stdout ≠ "" then pyStrip env.tquery.stdout
    else watchUrl video_id
  else watchUrl video_id

/-- `cp.stdout.strip().splitlines()[-1]`; `none` models the `IndexError`
on an empty line list (whitespace-only stdout), which the source's
`except` turns into the legacy fallback. -/
def lastLine (s : String) : Option String :=
  if pyStrip s = "" then none
  else ((splitOnChar '\n' (pyStrip s).data).map
    (fun l => (⟨l⟩ : String))).getLast?

/-- `StreamWorker.get_metadata` (source lines 721-737): on a usable `-j`
result parse its last stdout line; a caught failure (non-zero exit, empty
output, `json.loads` exception) falls back to the legacy title query with
no date; a parsed non-object raises `AttributeError` at `data.get`
(line 735), and an ill-typed `upload_date` raises inside the unguarded
part of `fmt_yt_date` (line 234); otherwise the result is
`data.get("title") or url` with the formatted date. -/
def get_metadata (env : MetaEnv) (video_id : String) :
    Except PyError (JVal × Option String) :=
  if env.ytdlp_ok then
    let url := watchUrl video_id
    if env.jquery.rc ≠ 0 ∨ env.jquery.stdout = "" then
      .ok (.jstr (get_title_legacy env video_id), none)
    else
      match lastLine env.jquery.stdout with
      | none => .ok (.jstr (get_title_legacy env video_id), none)
      | some ln =>
        match env.parse ln with
        | none => .ok (.jstr (get_title_legacy env video_id), none)
        | some .nonObject => .error .attributeError
        | some (.obj title ud ts rts) =>
          let t : JVal := match title with
            | some v => if jTruthy v then v else .jstr url
            | none => .jstr url
          match fmt_yt_date_j ud ts rts with
          | .error e => .error e
          | .ok d => .ok (t, d)
  else .ok (.jstr (get_title_legacy env video_id), none)

/-! ### Relay loop (`run`, source lines 1092-1141)

The loop is embedded with oracles: `fetch n` is the result of the n-th
`get_video_ids` call (`exn` models a raised exception), `outcome vid` is
how `run_one_video(vid)` ends (normal return; an internal resolution
failure caught and logged at source lines 968-973, which returns early;
or an exception reaching the loop's `except` at lines 1121-1126), and
`stop k` is the value of the k-th `_stop.is_set()` read, the reads
numbered in program order.  The body is modelled for `shuffle` off, the
configuration the ordering claims are about.  `fuel` bounds how many
`while` iterations are unrolled: the loop has no exit besides `stop`. -/

inductive FetchResult
  | ok (ids : List String)
  | exn
deriving Repr, DecidableEq

inductive ItemOutcome
  | streamed
  | resolveFail
  | streamError
deriving Repr, DecidableEq

inductive LoopEvent
  | fetched (n : Nat)
  | wait1
  | itemStart (id : String)
  | resolveFailed (id : String)
  | streamErrored (id : String)
  | delay2
deriving Repr, DecidableEq

/-- The 30-second backoff `for _ in range(30): if self._stop.is_set():
break / time.sleep(1)` (source lines 1097-1100 and 1137-1140): returns
the seconds slept and the clock after the reads consumed. -/
def backoffAux (stop : Nat → Bool) : Nat → Nat → Nat × Nat
  | 0, k => (0, k)
  | n + 1, k =>
    if stop k then (0, k + 1)
    else
      let r := backoffAux stop n (k + 1)
      (r.1 + 1, r.2)

def backoff30 (stop : Nat → Bool) (k : Nat) : Nat × Nat :=
  backoffAux stop 30 k

/-- The `for idx, vid in enumerate(ids, 1)` body (source lines
1106-1129): stop check at the loop head (line 1107), the per-item run,
the loop-level `except` branch with its conditional 2-second delay
(lines 1121-1126), and the stop check at line 1128.  Returns the events
and the clock after the loop. -/
def itemsLoop (outcome : String → ItemOutcome) (stop : Nat → Bool) :
    List String → Nat → List LoopEvent × Nat
  | [], k => ([], k)
  | vid :: rest, k =>
    if stop k then ([], k + 1)
    else
      match outcome vid with
      | .streamed =>
        if stop (k + 1) then ([.itemStart vid], k + 2)
        else
          let r := itemsLoop outcome stop rest (k + 2)
          (.itemStart vid :: r.1, r.2)
      | .resolveFail =>
        if stop (k + 1) then ([.itemStart vid, .resolveFailed vid], k + 2)
        else
          let r := itemsLoop outcome stop rest (k + 2)
          (.itemStart vid :: .resolveFailed vid :: r.1, r.2)
      | .streamError =>
        if stop (k + 1) then
          if stop (k + 2) then ([.itemStart vid, .streamErrored vid], k + 3)
          else
            let r := itemsLoop outcome stop rest (k + 3)
            (.itemStart vid :: .streamErrored vid :: r.1, r.2)
        else
          if stop (k + 2) then
            ([.itemStart vid, .streamErrored vid, .delay2], k + 3)
          else
            let r := itemsLoop outcome stop rest (k + 3)
            (.itemStart vid :: .streamErrored vid :: .delay2 :: r.1, r.2)

/-- The `while not self._stop.is_set()` driver (source lines 1092-1141),
unrolled `fuel` times from clock `k` and fetch counter `n`: an empty
fetched list or a fetch-level exception leads to the same 30-second
interruptible backoff and a retry; a non-empty list runs the item loop
and then re-fetches (line 1131 stop check in between). -/
def runLoop (fetch : Nat → FetchResult) (outcome : String → ItemOutcome)
    (stop : Nat → Bool) : Nat → Nat → Nat → List LoopEvent
  | 0, _, _ => []
  | fuel + 1, k, n =>
    if stop k then []
    else
      match fetch n with
      | .exn =>
        let r := backoff30 stop (k + 1)
        .fetched n ::
          (List.replicate r.1 .wait1 ++ runLoop fetch outcome stop fuel r.2 (n + 1))
      | .ok [] =>
        let r := backoff30 stop (k + 1)
        .fetched n ::
          (List.replicate r.1 .wait1 ++ runLoop fetch outcome stop fuel r.2 (n + 1))
      | .ok ids =>
        let ri := itemsLoop outcome stop ids (k + 1)
        if stop ri.2 then .fetched n :: ri.1
        else .fetched n :: (ri.1 ++ runLoop fetch outcome stop fuel (ri.2 + 1) (n + 1))

/-- The loop-level events one item contributes when stop stays unset:
entered; then nothing extra on a normal return, the logged early return
on a resolution failure, or the logged error plus the fixed 2-second
delay when the exception reaches the loop. -/
def perItemEvents (outcome : String → ItemOutcome) (id : String) : List LoopEvent :=
  LoopEvent.itemStart id ::
    match outcome id with
    | .streamed => []
    | .resolveFail => [.resolveFailed id]
    | .streamError => [.streamErrored id, .delay2]

/-! ### Control flags (`stop` / `skip`, source lines 674-687 and 994)

The only mutations of the two `threading.Event` flags in the worker:
`stop()` sets `_stop` (line 677), `skip()` sets `_skip` (line 684), and
`run_one_video` clears `_skip` (line 994) immediately before launching
ffmpeg for the next item; `_stop` is never cleared during a run (a fresh
worker is constructed per run, line 1745). -/

structure Flags where
  stop : Bool
  skip : Bool
deriving Repr, DecidableEq

inductive FlagEvent
  | setStop
  | setSkip
  | beginStream
deriving Repr, DecidableEq

def applyFlag (f : Flags) : FlagEvent → Flags
  | .setStop => { f with stop := true }
  | .setSkip => { f with skip := true }
  | .beginStream => { f with skip := false }

def applyFlags (f : Flags) (evs : List FlagEvent) : Flags :=
  evs.foldl applyFlag f

/-! ### Post-exit tail of the per-item run (source lines 1027-1053) -/

inductive SupEvent
  | terminate
  | waitNatural
  | joinReaders
  | flushOutput
  | cooldown (secs : Nat)
deriving Repr, DecidableEq

/-- What `run_one_video` does once its wait loop has ended, as a function
of the two flags at that point: escalated termination (stop or skip) or a
short natural wait, joining the output pumps, flushing buffered output,
then `if not self._stop.is_set(): time.sleep(2)` — the cool-down runs
only when stop is unset. -/
def superviseTail (stopSet skipSet : Bool) : List SupEvent :=
  (if stopSet || skipSet then [.terminate] else [.waitNatural]) ++
  [.joinReaders, .flushOutput] ++
  (if stopSet then [] else [.cooldown 2])

example : fmt_yt_date (some "20240115") none none = some "Jan 14, 2024" := by decide
example : fmt_yt_date none (some 0) none = none := by decide
example : fmt_yt_date (some "20240301") none none = some "Feb 29, 2024" := by decide
example : fmt_yt_date (some "20230301") none none = some "Feb 28, 2023" := by decide
example : fmt_yt_date none (some 86400) none = some "Jan 1, 1970" := by decide
example : fmt_yt_date (some "bad") (some 86400) none = some "Jan 1, 1970" := by decide
example :
    (consumePrefetch ⟨some "a", some "t", none, some "u", none⟩ "a").1 =
      some ⟨some "t", none, some "u", none⟩ := by decide

example :
    (consumePrefetch ⟨some "a", some "t", none, some "u", none⟩ "b").2 =
      ⟨some "a", some "t", none, some "u", none⟩ := by decide

theorem optStrTruthy_iff (o : Option String) :
    optStrTruthy o = true ↔ ∃ u, o = some u ∧ u ≠ "" := by
  cases o with
  | none => simp [optStrTruthy]
  | some s => simp [optStrTruthy]

/-- C1 (amended): the per-item run uses the prefetch cache iff the stored
tag equals the current identifier and the cached primary URL is a present,
non-empty string; on a match the whole cache is cleared before use; on a
mismatch nothing is returned and the cache is left unchanged (the stale
entry is not dropped). -/
theorem consumePrefetch_single_use (c : PrefetchCache) (id : String) :
    ((consumePrefetch c id).1.isSome = true ↔
      (c.video_id = some id ∧ ∃ u, c.vurl = some u ∧ u ≠ "")) ∧
    ((consumePrefetch c id).1.isSome = true →
      (consumePrefetch c id).2 = PrefetchCache.cleared) ∧
    ((consumePrefetch c id).1 = none → (consumePrefetch c id).2 = c) := by
  unfold consumePrefetch
  by_cases h : c.video_id = some id ∧ optStrTruthy c.vurl
  · simp only [if_pos h, Option.isSome_some]
    refine ⟨⟨fun _ => ⟨h.1, (optStrTruthy_iff c.vurl).1 h.2⟩, fun _ => trivial⟩,
      fun _ => trivial, fun hcontra => by simp at hcontra⟩
  · simp only [if_neg h, Option.isSome_none]
    refine ⟨⟨fun hcontra => by simp at hcontra, fun hr => ?_⟩,
      fun hcontra => by simp at hcontra, fun _ => trivial⟩
    exact absurd ⟨hr.1, (optStrTruthy_iff c.vurl).2 hr.2⟩ h

theorem consumePrefetch_single_use_witness :
    (consumePrefetch ⟨some "a", none, none, some "u", none⟩ "a").1.isSome = true ∧
    (consumePrefetch ⟨some "a", none, none, some "u", none⟩ "a").2 =
      PrefetchCache.cleared := by
  have h := consumePrefetch_single_use ⟨some "a", none, none, some "u", none⟩ "a"
  have hhit : (consumePrefetch ⟨some "a", none, none, some "u", none⟩ "a").1.isSome = true :=
    h.1.2 ⟨rfl, "u", rfl, by decide⟩
  exact ⟨hhit, h.2.1 hhit⟩

/-- C1 counterexample to the claim as stated: a mismatched cache entry is
not dropped after the failed check — the cache survives unchanged and the
very same stale entry is consumed by a later run whose identifier equals
the stored tag. -/
theorem consumePrefetch_mismatch_not_dropped :
    (consumePrefetch ⟨some "a", some "t", none, some "u", none⟩ "b").1 = none ∧
    (consumePrefetch ⟨some "a", some "t", none, some "u", none⟩ "b").2 =
      ⟨some "a", some "t", none, some "u", none⟩ ∧
    (consumePrefetch
      ((consumePrefetch ⟨some "a", some "t", none, some "u", none⟩ "b").2)
      "a").1.isSome = true := by decide

/-- C10: a cache entry whose primary media URL is absent (`None`) or empty
is never consumed, even when the stored tag equals the requested
identifier: the check returns nothing and the caller resolves
synchronously, with the cache left unchanged. -/
theorem consumePrefetch_absent_vurl (c : PrefetchCache) (id : String)
    (h : c.vurl = none ∨ c.vurl = some "") :
    (consumePrefetch c id).1 = none ∧ (consumePrefetch c id).2 = c := by
  unfold consumePrefetch
  have hf : optStrTruthy c.vurl = false := by
    rcases h with h | h <;> simp [h, optStrTruthy]
  rw [if_neg]
  · exact ⟨rfl, rfl⟩
  · rintro ⟨-, htr⟩
    rw [hf] at htr
    exact Bool.false_ne_true htr


theorem consumePrefetch_absent_vurl_witness :
    (consumePrefetch ⟨some "a", some "t", none, none, none⟩ "a").1 = none ∧
    (consumePrefetch ⟨some "a", some "t", none, none, none⟩ "a").2 =
      ⟨some "a", some "t", none, none, none⟩ :=
  consumePrefetch_absent_vurl ⟨some "a", some "t", none, none, none⟩ "a" (Or.inl rfl)

/-! ### C2: overlay budget and date integrity -/

theorem monthAbbr_length (m : Nat) : (monthAbbr m).length ≤ 3 := by
  unfold monthAbbr
  repeat' split
  all_goals decide

theorem fmtDatePretty_length (y m d : Nat) (hd : d ≤ 31) (hy : y ≤ 9999) :
    3 ≤ (fmtDatePretty y m d).length ∧ (fmtDatePretty y m d).length ≤ 12 := by
  have h1 := monthAbbr_length m
  have h2 : (Nat.repr d).length ≤ 2 := Nat.repr_length d 2 (by norm_num) (by omega)
  have h3 : (Nat.repr y).length ≤ 4 := Nat.repr_length y 4 (by norm_num) (by omega)
  unfold fmtDatePretty
  rw [String.length_append, String.length_append, String.length_append,
    String.length_append]
  have hsp : (" " : String).length = 1 := rfl
  have hcm : ((", ") : String).length = 2 := rfl
  omega

theorem civilMD_day_le (doy : Nat) : (civilMD doy).2 ≤ 31 := by
  show doy - (153 * ((5 * doy + 2) / 153) + 2) / 5 + 1 ≤ 31
  omega

theorem civilFromDays_day_le (z : Int) : (civilFromDays z).2.2 ≤ 31 :=
  civilMD_day_le _

theorem daysInMonth_le (y m : Nat) : daysInMonth y m ≤ 31 := by
  unfold daysInMonth
  repeat' split
  all_goals omega

theorem predDay_bounds (y m d y2 m2 d2 : Nat) (hv : isValidDate y m d = true)
    (hx : predDay y m d = some (y2, m2, d2)) : y2 ≤ 9999 ∧ d2 ≤ 31 := by
  have hv' := of_decide_eq_true hv
  obtain ⟨h1, h2, h3, h4, h5, h6⟩ := hv'
  have hdm := daysInMonth_le y m
  have hdm2 := daysInMonth_le y (m - 1)
  unfold predDay at hx
  split at hx
  · simp only [Option.some.injEq, Prod.mk.injEq] at hx
    obtain ⟨rfl, -, rfl⟩ := hx
    omega
  · split at hx
    · simp only [Option.some.injEq, Prod.mk.injEq] at hx
      obtain ⟨rfl, -, rfl⟩ := hx
      omega
    · split at hx
      · simp only [Option.some.injEq, Prod.mk.injEq] at hx
        obtain ⟨rfl, -, rfl⟩ := hx
        omega
      · simp at hx

theorem fmtValidDate_shape (y m d : Nat) (s : String)
    (h : fmtValidDate y m d = some s) :
    ∃ y2 m2 d2, y2 ≤ 9999 ∧ d2 ≤ 31 ∧ s = fmtDatePretty y2 m2 d2 := by
  unfold fmtValidDate at h
  split at h
  · next hv =>
    split at h
    · next x hx =>
      obtain ⟨y2, m2, d2⟩ := x
      simp only [Option.some.injEq] at h
      have hb := predDay_bounds y m d y2 m2 d2 hv hx
      exact ⟨y2, m2, d2, hb.1, hb.2, h.symm⟩
    · simp at h
  · simp at h

theorem fmtUploadDate_shape (u : String) (s : String)
    (h : fmtUploadDate u = some s) :
    ∃ y2 m2 d2, y2 ≤ 9999 ∧ d2 ≤ 31 ∧ s = fmtDatePretty y2 m2 d2 := by
  unfold fmtUploadDate at h
  split at h
  · exact fmtValidDate_shape _ _ _ _ h
  · simp at h

theorem fmtTimestamp_shape (t : Int) (s : String)
    (h : fmtTimestamp t = some s) :
    ∃ y2 m2 d2, y2 ≤ 9999 ∧ d2 ≤ 31 ∧ s = fmtDatePretty y2 m2 d2 := by
  unfold fmtTimestamp at h
  dsimp only at h
  split at h
  · split at h
    · next hg =>
      simp only [Option.some.injEq] at h
      refine ⟨_, _, _, ?_, civilFromDays_day_le _, h.symm⟩
      omega
    · simp at h
  · simp at h

theorem fmtTsFallback_shape (ts rts : Option Int) (s : String)
    (h : fmtTsFallback ts rts = some s) :
    ∃ y2 m2 d2, y2 ≤ 9999 ∧ d2 ≤ 31 ∧ s = fmtDatePretty y2 m2 d2 := by
  unfold fmtTsFallback at h
  split at h
  · next t heq =>
    split at h
    · simp at h
    · exact fmtTimestamp_shape t s h
  · simp at h

theorem fmt_yt_date_shape (ud : Option String) (ts rts : Option Int) (s : String)
    (h : fmt_yt_date ud ts rts = some s) :
    ∃ y2 m2 d2, y2 ≤ 9999 ∧ d2 ≤ 31 ∧ s = fmtDatePretty y2 m2 d2 := by
  unfold fmt_yt_date at h
  cases ud with
  | none =>
    dsimp only at h
    exact fmtTsFallback_shape ts rts s h
  | some u =>
    dsimp only at h
    cases hu : fmtUploadDate u with
    | none =>
      rw [hu] at h
      dsimp only at h
      exact fmtTsFallback_shape ts rts s h
    | some s1 =>
      rw [hu] at h
      dsimp only at h
      simp only [Option.some.injEq] at h
      subst h
      exact fmtUploadDate_shape u s1 hu

theorem pySliceTo_length (s : String) (n : Nat) : (pySliceTo s n).length ≤ n := by
  show (s.data.take n).length ≤ n
  rw [List.length_take]
  omega

theorem overlayCore_length (tc suffix : String) (hs : suffix.length ≤ 15) :
    (if tc.length + suffix.length > MAX_LEN then
      pySliceTo tc (max 10 (MAX_LEN - suffix.length - 3)) ++ "..." ++ suffix
    else tc ++ suffix).length ≤ 75 := by
  have hdots : ("..." : String).length = 3 := rfl
  split
  · rw [String.length_append, String.length_append]
    have h1 := pySliceTo_length tc (max 10 (MAX_LEN - suffix.length - 3))
    unfold MAX_LEN at *
    omega
  · next hle =>
    rw [String.length_append]
    unfold MAX_LEN at hle
    omega

theorem overlayCore_suffix (tc suffix : String) :
    ∃ pre, (if tc.length + suffix.length > MAX_LEN then
      pySliceTo tc (max 10 (MAX_LEN - suffix.length - 3)) ++ "..." ++ suffix
    else tc ++ suffix) = pre ++ suffix := by
  split
  · exact ⟨_, rfl⟩
  · exact ⟨tc, rfl⟩

theorem overlayText_spec (title pd : Option String)
    (hlen : ∀ s, pd = some s → 1 ≤ s.length ∧ s.length ≤ 12) :
    (overlayText title pd).length ≤ 75 ∧
    ∀ s, pd = some s → ∃ pre, overlayText title pd = pre ++ (" • " ++ s) := by
  cases pd with
  | none =>
    refine ⟨?_, by intro s hs; simp at hs⟩
    unfold overlayText
    dsimp only
    exact overlayCore_length _ "" (by decide)
  | some s =>
    obtain ⟨hs1, hs2⟩ := hlen s rfl
    have hne : s ≠ "" := by
      intro he
      subst he
      simp [String.length] at hs1
    refine ⟨?_, ?_⟩
    · unfold overlayText
      dsimp only
      rw [if_neg hne]
      refine overlayCore_length _ (" • " ++ s) ?_
      rw [String.length_append]
      have : (" • " : String).length = 3 := rfl
      omega
    · intro s2 hs3
      simp only [Option.some.injEq] at hs3
      subst hs3
      unfold overlayText
      dsimp only
      rw [if_neg hne]
      exact overlayCore_suffix _ (" • " ++ s)

/-- C2: whenever the overlay is enabled, the overlay text written to the
overlay file never exceeds the fixed 75-character total budget, and when
the formatter produced a date the bullet-plus-date suffix appears fully
intact at the end of the written text. -/
theorem overlay_budget_preserves_date (title : Option String)
    (ud : Option String) (ts rts : Option Int) :
    (overlayText title (fmt_yt_date ud ts rts)).length ≤ 75 ∧
    ∀ s, fmt_yt_date ud ts rts = some s →
      ∃ pre, overlayText title (fmt_yt_date ud ts rts) = pre ++ (" • " ++ s) := by
  apply overlayText_spec
  intro s hs
  obtain ⟨y2, m2, d2, hy, hd, rfl⟩ := fmt_yt_date_shape ud ts rts s hs
  have := fmtDatePretty_length y2 m2 d2 hd hy
  omega

theorem overlay_budget_preserves_date_witness :
    (overlayText
      (some "An extremely long video title that goes on and on and on and truly never seems to end at all")
      (fmt_yt_date (some "20240115") none none)).length ≤ 75 ∧
    ∀ s, fmt_yt_date (some "20240115") none none = some s →
      ∃ pre,
        overlayText
          (some "An extremely long video title that goes on and on and on and truly never seems to end at all")
          (fmt_yt_date (some "20240115") none none) = pre ++ (" • " ++ s) :=
  overlay_budget_preserves_date
    (some "An extremely long video title that goes on and on and on and truly never seems to end at all")
    (some "20240115") none none

/-! ### C3: endpoint preflight with RTMPS fallback -/

theorem strData_append (a b : String) : (a ++ b).data = a.data ++ b.data := rfl

example : urlparse "rtmp://a.rtmp.youtube.com/live2/key" =
    ⟨"rtmp", "a.rtmp.youtube.com", "/live2/key"⟩ := by decide

example : urlunparse ⟨"rtmps", "a.rtmp.youtube.com:443", "/live2/key"⟩ =
    "rtmps://a.rtmp.youtube.com:443/live2/key" := by decide

theorem rsplitSlashLast_join (l : List Char) :
    ∀ a b, rsplitSlashLast l = some (a, b) → l = a ++ '/' :: b := by
  induction l with
  | nil => intro a b h; simp [rsplitSlashLast] at h
  | cons c cs ih =>
    intro a b h
    unfold rsplitSlashLast at h
    cases hcs : rsplitSlashLast cs with
    | some x =>
      obtain ⟨a2, b2⟩ := x
      rw [hcs] at h
      simp only [Option.some.injEq, Prod.mk.injEq] at h
      obtain ⟨rfl, rfl⟩ := h
      simpa using congrArg (c :: ·) (ih a2 b2 hcs)
    | none =>
      rw [hcs] at h
      dsimp only at h
      split at h
      · next hc =>
        simp only [Option.some.injEq, Prod.mk.injEq] at h
        obtain ⟨rfl, rfl⟩ := h
        rw [hc]
        simp
      · simp at h

theorem rsplitSlashLast_isSome (l : List Char) (h : '/' ∈ l) :
    (rsplitSlashLast l).isSome = true := by
  induction l with
  | nil => simp at h
  | cons c cs ih =>
    unfold rsplitSlashLast
    cases hcs : rsplitSlashLast cs with
    | some x =>
      obtain ⟨a, b⟩ := x
      simp
    | none =>
      dsimp only
      rcases List.mem_cons.1 h with hc | hmem
      · rw [← hc]
        simp
      · have hi := ih hmem
        rw [hcs] at hi
        simp at hi

theorem rsplit_join (s : String) (h : '/' ∈ s.data) :
    rsplitBase s ++ "/" ++ rsplitTail s = s := by
  unfold rsplitBase rsplitTail
  cases hx : rsplitSlashLast s.data with
  | none =>
    have hs := rsplitSlashLast_isSome s.data h
    rw [hx] at hs
    simp at hs
  | some x =>
    obtain ⟨a, b⟩ := x
    dsimp only
    have hj := rsplitSlashLast_join s.data a b hx
    cases s with
    | mk data =>
      have : (String.mk a ++ "/" ++ String.mk b).data = a ++ '/' :: b := by
        rw [strData_append, strData_append]
        simp
      calc String.mk a ++ "/" ++ String.mk b
          = String.mk ((String.mk a ++ "/" ++ String.mk b).data) := rfl
        _ = String.mk (a ++ '/' :: b) := by rw [this]
        _ = String.mk data := by rw [← hj]

theorem urlunparse_rtmps_has_slash (nl p : String) (hnl : nl ≠ "") :
    '/' ∈ (urlunparse ⟨"rtmps", nl, p⟩).data := by
  unfold urlunparse
  dsimp only
  rw [if_pos (Or.inl hnl), if_pos (by decide : ("rtmps" : String) ≠ "")]
  have h2 : '/' ∈ ("//" : String).data := by decide
  simp only [strData_append, List.mem_append]
  tauto

theorem appendColonPort_ne_empty (host : String) : host ++ ":" ++ "443" ≠ "" := by
  intro he
  have hlen := congrArg String.length he
  rw [String.length_append, String.length_append] at hlen
  have h1 : (":" : String).length = 1 := rfl
  have h2 : ("443" : String).length = 3 := rfl
  have h3 : ("" : String).length = 0 := rfl
  omega

/-- C3: if the push to the configured URL fails and its scheme is the
plaintext `rtmp`, exactly one retry is made, against the `rtmps` URL with
the port forced to the standard secure port 443; if that retry succeeds
the call returns `True` and the config's effective ingest URL is switched
to the rtmps variant; if it fails the call returns `False` with the
config untouched.  If the failing URL's scheme is already `rtmps`, no
retry is attempted and the call returns `False`. -/
theorem preflight_rtmp_spec (push : String → Bool) (cfg : StreamConfig) :
    (∀ nl p host, urlparse cfg.rtmp_url = ⟨"rtmp", nl, p⟩ →
      (partitionColon nl).1 = host → host ≠ "" →
      push cfg.rtmp_url = false →
      (preflight_rtmp push cfg).2.2 =
        [cfg.rtmp_url, urlunparse ⟨"rtmps", host ++ ":" ++ "443", p⟩] ∧
      (push (urlunparse ⟨"rtmps", host ++ ":" ++ "443", p⟩) = true →
        (preflight_rtmp push cfg).1 = true ∧
        (preflight_rtmp push cfg).2.1.rtmp_url =
          urlunparse ⟨"rtmps", host ++ ":" ++ "443", p⟩) ∧
      (push (urlunparse ⟨"rtmps", host ++ ":" ++ "443", p⟩) = false →
        preflight_rtmp push cfg =
          (false, cfg, [cfg.rtmp_url, urlunparse ⟨"rtmps", host ++ ":" ++ "443", p⟩]))) ∧
    (∀ nl p, urlparse cfg.rtmp_url = ⟨"rtmps", nl, p⟩ →
      push cfg.rtmp_url = false →
      preflight_rtmp push cfg = (false, cfg, [cfg.rtmp_url])) := by
  constructor
  · intro nl p host hu hhost hne hfail
    unfold preflight_rtmp
    dsimp only
    rw [if_neg (by simp [hfail]), hu]
    dsimp only
    rw [if_pos rfl, hhost, if_pos hne]
    refine ⟨?_, ?_, ?_⟩
    · split <;> rfl
    · intro hok
      rw [if_pos (by simp [hok])]
      refine ⟨rfl, ?_⟩
      show rsplitBase _ ++ "/" ++ rsplitTail _ = _
      exact rsplit_join _ (urlunparse_rtmps_has_slash _ p (appendColonPort_ne_empty host))
    · intro hbad
      rw [if_neg (by simp [hbad])]
  · intro nl p hu hfail
    unfold preflight_rtmp
    dsimp only
    rw [if_neg (by simp [hfail]), hu]
    dsimp only
    rw [if_neg (by decide : ¬ ("rtmps" : String) = "rtmp")]

theorem preflight_rtmp_spec_witness :
    (preflight_rtmp (fun s => decide ((urlparse s).scheme = "rtmps"))
      ⟨"pl", "key", "rtmp://a.rtmp.youtube.com/live2", 30, 720, true, false⟩).1 = true ∧
    (preflight_rtmp (fun s => decide ((urlparse s).scheme = "rtmps"))
      ⟨"pl", "key", "rtmp://a.rtmp.youtube.com/live2", 30, 720, true, false⟩).2.1.rtmp_url =
      "rtmps://a.rtmp.youtube.com:443/live2/key" ∧
    (preflight_rtmp (fun s => decide ((urlparse s).scheme = "rtmps"))
      ⟨"pl", "key", "rtmp://a.rtmp.youtube.com/live2", 30, 720, true, false⟩).2.2 =
      ["rtmp://a.rtmp.youtube.com/live2/key",
       "rtmps://a.rtmp.youtube.com:443/live2/key"] := by
  have h := (preflight_rtmp_spec (fun s => decide ((urlparse s).scheme = "rtmps"))
    ⟨"pl", "key", "rtmp://a.rtmp.youtube.com/live2", 30, 720, true, false⟩).1
    "a.rtmp.youtube.com" "/live2/key" "a.rtmp.youtube.com"
    (by decide) (by decide) (by decide) (by decide)
  have hok := h.2.1 (by decide)
  refine ⟨hok.1, hok.2.trans (by decide), h.1.trans ?_⟩
  decide

/-! ### C4: media-location strategy order -/

theorem tryFormat_eq_runStrategy (q : YtQuery → Option ProcResult) (f : String) :
    tryFormat q f = runStrategy q (.direct f) := by
  unfold tryFormat runStrategy
  dsimp only
  cases qLines (q (.withFmt f)) with
  | none => rfl
  | some lines =>
    simp only [Option.some_bind]
    by_cases he : lines = []
    · rw [if_neg (fun h => h he), if_pos (Or.inl he)]
    · by_cases ha : lines.any hasM3u8 = true
      · rw [if_pos he, if_pos ha, if_pos (Or.inr ha)]
      · have ho : ¬ (lines = [] ∨ lines.any hasM3u8 = true) := by
          rintro (h | h)
          · exact he h
          · exact ha h
        rw [if_pos he, if_neg ha, if_neg ho]

theorem manifest_branch_eq (q : YtQuery → Option ProcResult) :
    (match qLines (q (.hlsNative "best")) with
     | some lines =>
       if lines ≠ [] ∧ lines.any hasM3u8 then
         match lines.find? hasM3u8 with
         | some hls => some (hls, (none : Option String))
         | none => none
       else none
     | none => none) = runStrategy q .manifest := by
  unfold runStrategy
  cases hq : qLines (q (.hlsNative "best")) with
  | none => rfl
  | some lines =>
    simp only [Option.some_bind]
    cases hf : lines.find? hasM3u8 with
    | some hls =>
      have hmem := List.mem_of_find?_eq_some hf
      have hp := List.find?_some hf
      have hne : lines ≠ [] := List.ne_nil_of_mem hmem
      have hany : lines.any hasM3u8 = true := List.any_eq_true.2 ⟨hls, hmem, hp⟩
      rw [if_pos ⟨hne, hany⟩]
      simp
    | none =>
      have hall := List.find?_eq_none.1 hf
      have hany : ¬ lines.any hasM3u8 = true := by
        rw [List.any_eq_true]
        rintro ⟨x, hx, hpx⟩
        exact hall x hx hpx
      rw [if_neg (fun hcontra => hany hcontra.2)]
      simp

theorem tail_strategies_eq (q : YtQuery → Option ProcResult) (vid : String) :
    (match tryFormatList q format_strategies with
     | some r => Except.ok r
     | none =>
       match qLines (q .plain) with
       | some lines =>
         if lines ≠ [] then Except.ok (pairFromLines lines)
         else Except.error (noPlayable vid)
       | none => Except.error (noPlayable vid)) =
    (match firstSuccess q [MediaStrategy.direct "bv*+ba/best",
        MediaStrategy.direct "best[height<=?1080]",
        MediaStrategy.direct "worst[height>=480]", MediaStrategy.direct "best",
        MediaStrategy.finalAny] with
     | some r => Except.ok r
     | none => Except.error (noPlayable vid)) := by
  simp only [format_strategies, tryFormatList, tryFormat_eq_runStrategy, firstSuccess]
  cases runStrategy q (.direct "bv*+ba/best") <;> dsimp only
  · cases runStrategy q (.direct "best[height<=?1080]") <;> dsimp only
    · cases runStrategy q (.direct "worst[height>=480]") <;> dsimp only
      · cases runStrategy q (.direct "best") <;> dsimp only
        · simp only [runStrategy]
          cases qLines (q .plain) with
          | none => rfl
          | some lines =>
            simp only [Option.some_bind]
            by_cases he : lines = []
            · simp [he]
            · simp [he]

/-- C4: `get_stream_urls` implements exactly the claimed fixed strategy
order: the adaptive-manifest query first, then the four progressively
looser direct-URL format queries (each rejecting manifest results), then
the hint-free final query, returning on the first success, and raising
the distinct no-playable-source error when every strategy fails. -/
theorem get_stream_urls_strategy_order (q : YtQuery → Option ProcResult)
    (video_id : String) :
    get_stream_urls q video_id = resolveMediaLocationsSpec q video_id := by
  unfold get_stream_urls resolveMediaLocationsSpec
  dsimp only
  rw [manifest_branch_eq]
  have hstep : firstSuccess q strategyOrder =
      match runStrategy q .manifest with
      | some r => some r
      | none => firstSuccess q [MediaStrategy.direct "bv*+ba/best",
          MediaStrategy.direct "best[height<=?1080]",
          MediaStrategy.direct "worst[height>=480]", MediaStrategy.direct "best",
          MediaStrategy.finalAny] := rfl
  rw [hstep]
  cases hm : runStrategy q .manifest with
  | some r => rfl
  | none =>
    dsimp only
    exact tail_strategies_eq q video_id

example :
    get_stream_urls (fun qq => match qq with
      | .hlsNative _ => some ⟨0, "https://x/video.mp4"⟩
      | .withFmt "bv*+ba/best" => some ⟨1, "err"⟩
      | .withFmt "best[height<=?1080]" => some ⟨0, "https://v\nhttps://a"⟩
      | _ => none) "vid" = .ok ("https://v", some "https://a") := by rfl

example :
    get_stream_urls (fun qq => match qq with
      | .hlsNative _ => some ⟨0, "https://x/manifest.m3u8\nother"⟩
      | _ => none) "vid" = .ok ("https://x/manifest.m3u8", none) := by rfl

example :
    get_stream_urls (fun _ => none) "vid" =
      .error ("No playable formats found for video vid") := by rfl

/-! ### C5: metadata resolution degrades on caught failures, but can raise -/

/-- C5 counterexample to the claim as stated: `get_metadata` can raise.
A `-j` run that exits 0 with last stdout line `null` parses fine at line
732, but `data.get("title")` at line 735 then raises `AttributeError` out
of the function; an integer-typed `upload_date` field likewise makes the
unguarded line-234 check raise `TypeError`. -/
theorem get_metadata_can_raise :
    get_metadata
      ⟨true, ⟨0, "null"⟩, ⟨0, "T"⟩,
        fun ln => if ln = "null" then some .nonObject else none⟩ "abc" =
      .error .attributeError ∧
    get_metadata
      ⟨true, ⟨0, "x"⟩, ⟨0, "T"⟩,
        fun _ => some (.obj none (some (.jint 20240115)) none none)⟩ "abc" =
      .error .typeError := by decide

/-- C5 (amended): metadata resolution degrades on every failure of the
query machinery — if the structured-data query fails (non-zero exit,
empty output, or a last line `json.loads` cannot parse) it falls back to
the plain-text legacy title with no formatted date (never a placeholder),
and when the legacy query fails too the title is the constructed
canonical watch URL.  It is not raise-free, however: any raise that does
escape goes through exactly one of the two unguarded spots — a parsed
non-object at `data.get` (line 735), or an ill-typed truthy `upload_date`
field at the line-234 guard. -/
theorem get_metadata_degrades (env : MetaEnv) (vid : String) :
    ((env.ytdlp_ok = false ∨ env.jquery.rc ≠ 0 ∨ env.jquery.stdout = "" ∨
      (∀ ln, lastLine env.jquery.stdout = some ln → env.parse ln = none)) →
      get_metadata env vid = .ok (.jstr (get_title_legacy env vid), none)) ∧
    ((env.ytdlp_ok = false ∨ ¬(env.tquery.rc = 0 ∧ env.tquery.stdout ≠ "")) →
      get_title_legacy env vid = watchUrl vid) ∧
    (∀ e, get_metadata env vid = .error e →
      ∃ ln, lastLine env.jquery.stdout = some ln ∧
        (env.parse ln = some .nonObject ∨
         ∃ t ud ts rts, env.parse ln = some (.obj t ud ts rts) ∧
           ∃ e2, uploadGuard ud = .error e2)) := by
  refine ⟨?_, ?_, ?_⟩
  · intro h
    unfold get_metadata
    by_cases hok : env.ytdlp_ok = true
    · rw [if_pos hok]
      dsimp only
      by_cases hj : env.jquery.rc ≠ 0 ∨ env.jquery.stdout = ""
      · rw [if_pos hj]
      · rw [if_neg hj]
        rcases h with h | h | h | h
        · rw [hok] at h; cases h
        · exact absurd (Or.inl h) hj
        · exact absurd (Or.inr h) hj
        · cases hll : lastLine env.jquery.stdout with
          | none => rfl
          | some ln =>
            dsimp only
            rw [h ln hll]
    · rw [if_neg hok]
  · intro h
    unfold get_title_legacy
    rcases h with h | h
    · rw [if_neg (by simp [h])]
    · by_cases hok : env.ytdlp_ok = true
      · rw [if_pos hok, if_neg h]
      · rw [if_neg hok]
  · intro e he
    unfold get_metadata at he
    by_cases hok : env.ytdlp_ok = true
    · rw [if_pos hok] at he
      dsimp only at he
      by_cases hj : env.jquery.rc ≠ 0 ∨ env.jquery.stdout = ""
      · rw [if_pos hj] at he
        simp at he
      · rw [if_neg hj] at he
        cases hll : lastLine env.jquery.stdout with
        | none =>
          rw [hll] at he
          simp at he
        | some ln =>
          rw [hll] at he
          dsimp only at he
          cases hp : env.parse ln with
          | none =>
            rw [hp] at he
            simp at he
          | some pj =>
            rw [hp] at he
            cases pj with
            | nonObject => exact ⟨ln, rfl, Or.inl hp⟩
            | obj t ud ts rts =>
              dsimp only at he
              refine ⟨ln, rfl, Or.inr ⟨t, ud, ts, rts, hp, ?_⟩⟩
              cases hu : uploadGuard ud with
              | error e3 => exact ⟨e3, rfl⟩
              | ok udS =>
                exfalso
                unfold fmt_yt_date_j at he
                rw [hu] at he
                dsimp only at he
                cases hud : (match udS with
                  | some u => fmtUploadDate u
                  | none => (none : Option String)) with
                | some s =>
                  rw [hud] at he
                  simp at he
                | none =>
                  rw [hud] at he
                  simp at he
    · rw [if_neg hok] at he
      simp at he

theorem get_metadata_degrades_witness :
    get_metadata ⟨true, ⟨1, "boom"⟩, ⟨1, ""⟩, fun _ => none⟩ "abc" =
      .ok (.jstr "https://www.youtube.com/watch?v=abc", none) := by
  have h := get_metadata_degrades ⟨true, ⟨1, "boom"⟩, ⟨1, ""⟩, fun _ => none⟩ "abc"
  have h1 := h.1 (Or.inr (Or.inl (by decide)))
  have h2 := h.2.1 (Or.inr (by decide))
  rw [h1, h2]
  decide

/-! ### C6: per-item failures only skip that item -/

/-- C6 (amended): with the stop flag unset, one playlist pass visits every
identifier in order exactly once regardless of per-item outcomes — a
failing item is logged and skipped, never ending the pass; an exception
reaching the loop is followed by the fixed 2-second delay, while a
resolution failure returns early with no delay; and at the run level a
pass over a non-empty list (failures included) is followed by the next
fetch, so no single item's failure terminates the run. -/
theorem items_failures_skip_only (outcome : String → ItemOutcome)
    (fetch : Nat → FetchResult) (stop : Nat → Bool)
    (hstop : ∀ k, stop k = false) :
    (∀ ids k, (itemsLoop outcome stop ids k).1 = ids.flatMap (perItemEvents outcome)) ∧
    (∀ ids n k fuel, fetch n = .ok ids → ids ≠ [] →
      runLoop fetch outcome stop (fuel + 1) k n =
        .fetched n :: (ids.flatMap (perItemEvents outcome) ++
          runLoop fetch outcome stop fuel
            ((itemsLoop outcome stop ids (k + 1)).2 + 1) (n + 1))) := by
  have hpass : ∀ ids k,
      (itemsLoop outcome stop ids k).1 = ids.flatMap (perItemEvents outcome) := by
    intro ids
    induction ids with
    | nil => intro k; simp [itemsLoop]
    | cons vid rest ih =>
      intro k
      cases ho : outcome vid <;>
        simp [itemsLoop, hstop, ho, perItemEvents, ih, List.flatMap_cons]
  refine ⟨hpass, ?_⟩
  intro ids n k fuel hf hne
  cases ids with
  | nil => exact absurd rfl hne
  | cons a rest =>
    simp only [runLoop]
    rw [if_neg (by simp [hstop k]), hf]
    dsimp only
    rw [if_neg (by simp [hstop])]
    rw [hpass (a :: rest) (k + 1)]

theorem items_failures_skip_only_witness :
    (itemsLoop (fun _ => ItemOutcome.streamError) (fun _ => false) ["a", "b"] 0).1 =
      [.itemStart "a", .streamErrored "a", .delay2,
       .itemStart "b", .streamErrored "b", .delay2] := by
  have h := (items_failures_skip_only (fun _ => ItemOutcome.streamError)
    (fun _ => FetchResult.exn) (fun _ => false) (fun _ => rfl)).1 ["a", "b"] 0
  rw [h]
  decide

/-- C6 counterexample to the claim as stated: a resolution failure (the
no-playable-source path, caught inside `run_one_video` at lines 968-973)
skips the item and continues to the next identifier immediately — no
short fixed delay is inserted for this failure class, though the pass
does continue. -/
theorem items_resolvefail_no_delay :
    (itemsLoop (fun id => if id = "a" then .resolveFail else .streamed)
      (fun _ => false) ["a", "b"] 0).1 =
      [.itemStart "a", .resolveFailed "a", .itemStart "b"] ∧
    LoopEvent.delay2 ∉
      (itemsLoop (fun id => if id = "a" then .resolveFail else .streamed)
        (fun _ => false) ["a", "b"] 0).1 := by decide

/-! ### C7: 30-second interruptible backoff, unbounded retry -/

theorem backoffAux_no_stop (stop : Nat → Bool) (h : ∀ k, stop k = false) :
    ∀ n k, backoffAux stop n k = (n, k + n) := by
  intro n
  induction n with
  | zero => intro k; rfl
  | succ n ih =>
    intro k
    unfold backoffAux
    rw [if_neg (by simp [h])]
    dsimp only
    rw [ih (k + 1)]
    dsimp only
    congr 1
    omega

theorem backoffAux_first_stop (stop : Nat → Bool) :
    ∀ n k j, (∀ i, i < j → stop (k + i) = false) → stop (k + j) = true →
      (backoffAux stop n k).1 = min j n := by
  intro n
  induction n with
  | zero =>
    intro k j h1 h2
    simp [backoffAux]
  | succ n ih =>
    intro k j h1 h2
    unfold backoffAux
    cases j with
    | zero =>
      rw [if_pos (by simpa using h2)]
      simp
    | succ j =>
      have h0 : stop k = false := by simpa using h1 0 (Nat.succ_pos j)
      rw [if_neg (by simp [h0])]
      dsimp only
      have ihr := ih (k + 1) j
        (fun i hi => by
          have hx := h1 (i + 1) (by omega)
          rw [show k + 1 + i = k + (i + 1) by omega]
          exact hx)
        (by
          rw [show k + 1 + j = k + (j + 1) by omega]
          exact h2)
      rw [ihr]
      omega

/-- C7: when the fetched identifier list is empty or the fetch raises, the
loop waits through the 30-second backoff (thirty 1-second sleeps, each
preceded by a stop check) and retries, without bound while stop stays
unset — `fuel` unrollings yield exactly `fuel` fetch attempts; and if stop
first reads true at the j-th check, at most `min j 30` seconds are slept,
so the wait is interruptible at 1-second granularity. -/
theorem relay_backoff_spec (stop : Nat → Bool) (fetch : Nat → FetchResult)
    (outcome : String → ItemOutcome) :
    ((∀ k, stop k = false) → (∀ n, fetch n = .ok [] ∨ fetch n = .exn) →
      ∀ fuel k n, runLoop fetch outcome stop fuel k n =
        (List.range' n fuel).flatMap
          (fun i => LoopEvent.fetched i :: List.replicate 30 .wait1)) ∧
    (∀ k j, (∀ i, i < j → stop (k + i) = false) → stop (k + j) = true →
      (backoff30 stop k).1 = min j 30) ∧
    ((∀ k, stop k = false) → ∀ k, backoff30 stop k = (30, k + 30)) := by
  refine ⟨?_, ?_, ?_⟩
  · intro hstop hfetch fuel
    induction fuel with
    | zero => intro k n; rfl
    | succ fuel ih =>
      intro k n
      have hb : backoff30 stop (k + 1) = (30, k + 1 + 30) :=
        backoffAux_no_stop stop hstop 30 (k + 1)
      have hr : List.range' n (fuel + 1) = n :: List.range' (n + 1) fuel := rfl
      rcases hfetch n with hf | hf
      · simp only [runLoop]
        rw [if_neg (by simp [hstop k]), hf]
        dsimp only
        rw [hb]
        dsimp only
        rw [ih (k + 1 + 30) (n + 1), hr, List.flatMap_cons]
        rfl
      · simp only [runLoop]
        rw [if_neg (by simp [hstop k]), hf]
        dsimp only
        rw [hb]
        dsimp only
        rw [ih (k + 1 + 30) (n + 1), hr, List.flatMap_cons]
        rfl
  · intro k j h1 h2
    exact backoffAux_first_stop stop 30 k j h1 h2
  · intro hstop k
    exact backoffAux_no_stop stop hstop 30 k

theorem relay_backoff_spec_witness :
    runLoop (fun _ => FetchResult.ok []) (fun _ => ItemOutcome.streamed)
      (fun _ => false) 2 0 0 =
      (List.range' 0 2).flatMap
        (fun i => LoopEvent.fetched i :: List.replicate 30 .wait1) ∧
    (backoff30 (fun k => decide (5 ≤ k)) 0).1 = 5 := by
  constructor
  · exact (relay_backoff_spec (fun _ => false) (fun _ => FetchResult.ok [])
      (fun _ => ItemOutcome.streamed)).1 (fun _ => rfl) (fun _ => Or.inl rfl) 2 0 0
  · have h := (relay_backoff_spec (fun k => decide (5 ≤ k))
      (fun _ => FetchResult.ok []) (fun _ => ItemOutcome.streamed)).2.1 0 5
      (by decide) (by decide)
    rw [h]
    decide

/-! ### C8: control-flag monotonicity -/

/-- C8: over any sequence of the flag mutations that exist in the worker,
the stop flag is monotone (once set it is never cleared), the skip flag
stays set until the next item's streaming begins, and that begin-stream
point resets skip while leaving stop untouched. -/
theorem control_flags_monotonic (f : Flags) (evs : List FlagEvent) :
    (f.stop = true → (applyFlags f evs).stop = true) ∧
    (f.skip = true → FlagEvent.beginStream ∉ evs →
      (applyFlags f evs).skip = true) ∧
    applyFlag f .beginStream = ⟨f.stop, false⟩ := by
  refine ⟨?_, ?_, rfl⟩
  · induction evs generalizing f with
    | nil => intro h; exact h
    | cons e rest ih =>
      intro h
      show (applyFlags (applyFlag f e) rest).stop = true
      apply ih
      cases e <;> simp [applyFlag, h]
  · induction evs generalizing f with
    | nil => intro h _; exact h
    | cons e rest ih =>
      intro h hnb
      show (applyFlags (applyFlag f e) rest).skip = true
      apply ih
      · cases e with
        | setStop => simpa [applyFlag] using h
        | setSkip => simp [applyFlag]
        | beginStream => exact absurd (List.mem_cons_self _ _) hnb
      · intro hc
        exact hnb (List.mem_cons_of_mem _ hc)

theorem control_flags_monotonic_witness :
    (applyFlags ⟨true, true⟩ [FlagEvent.setSkip, FlagEvent.setStop]).stop = true ∧
    (applyFlags ⟨true, true⟩ [FlagEvent.setSkip, FlagEvent.setStop]).skip = true ∧
    applyFlag ⟨true, true⟩ .beginStream = ⟨true, false⟩ :=
  ⟨(control_flags_monotonic ⟨true, true⟩ [FlagEvent.setSkip, FlagEvent.setStop]).1 rfl,
   (control_flags_monotonic ⟨true, true⟩ [FlagEvent.setSkip, FlagEvent.setStop]).2.1
     rfl (by decide),
   (control_flags_monotonic ⟨true, true⟩ [FlagEvent.setSkip, FlagEvent.setStop]).2.2⟩

/-! ### C9: post-exit cool-down -/

/-- C9 counterexample to the claim as stated: when the stop flag is set,
the per-item run returns with no 2-second cool-down even though the
transcode process was launched and its exit confirmed (source line 1052
guards the sleep with `not self._stop.is_set()`). -/
theorem cooldown_skipped_on_stop :
    SupEvent.cooldown 2 ∉ superviseTail true false := by decide

/-- C9 (amended): after the transcode process has been confirmed exited,
the per-item run ends with the fixed 2-second cool-down unless the stop
flag is set, in which case it returns immediately with no cool-down. -/
theorem cooldown_conditional (stopSet skipSet : Bool) :
    (stopSet = false →
      ∃ pre, superviseTail stopSet skipSet = pre ++ [SupEvent.cooldown 2]) ∧
    (stopSet = true → SupEvent.cooldown 2 ∉ superviseTail stopSet skipSet) := by
  constructor
  · intro h
    subst h
    cases skipSet <;> exact ⟨_, rfl⟩
  · intro h
    subst h
    cases skipSet <;> decide

theorem cooldown_conditional_witness :
    ∃ pre, superviseTail false true = pre ++ [SupEvent.cooldown 2] :=
  (cooldown_conditional false true).1 rfl
